import Mathlib

/-!
Verification of the NEET quiz bot's scoring/ranking core.

Shallow embedding of the SQL-driven state transitions in
`src/database.py` and `src/main.py`:

* `update_user_stats_global` — the per-user `stats` upsert in
  `database.update_user_stats` (lines 154-178).
* `update_user_stats_users` / `handle_poll_answer_users` — the two
  `users` upserts (database.py lines 146-152, main.py lines 172-178).
* `send_random_quiz_draw` — the draw-and-delete of `send_random_quiz`
  (main.py lines 121-156).
* `normalize_answer` — the `correct_map` answer-key lookup after
  Python's `str.upper()` (main.py lines 135-136, 443-451).
* `get_leaderboard_data` — the leaderboard query (database.py 201-215).
* `get_rank_global` / `get_rank_group` / `mystats_group_rank` — the
  `COUNT(*) + 1` rank queries in `mystats` (main.py lines 259-271).

Tables are modelled as lists of rows; each SQL upsert becomes a pure
function from the (optional) existing row to the new row.  SQLite
INTEGER columns are modelled as `Int`, TEXT as `String`, nullable
columns as `Option`.
-/

namespace NeetQuizBot

/-- Row of the `stats` table (database.py lines 82-88 plus the
`last_activity_date` column added by migration). -/
structure StatsRow where
  user_id : Int
  attempted : Int
  correct : Int
  score : Int
  current_streak : Int
  max_streak : Int
  last_activity_date : String
deriving Repr, DecidableEq

/-- The `stats` upsert of `database.update_user_stats` (lines 154-178):
on a correct answer, `INSERT ... VALUES (?,1,1,4,1,1,?) ON CONFLICT DO
UPDATE SET attempted = attempted + 1, correct = correct + 1,
score = score + 4, current_streak = current_streak + 1,
max_streak = CASE WHEN (current_streak + 1) > max_streak THEN
(current_streak + 1) ELSE max_streak END`; on a wrong answer,
`INSERT ... VALUES (?,1,0,-1,0,?)` (the `max_streak` column is absent
from the column list, so it takes its declared default `0`)
`ON CONFLICT DO UPDATE SET attempted = attempted + 1,
score = score - 1, current_streak = 0`. -/
def update_user_stats_global (uid : Int) (row : Option StatsRow)
    (is_correct : Bool) (today : String) : StatsRow :=
  match row with
  | none =>
    if is_correct then
      { user_id := uid, attempted := 1, correct := 1, score := 4,
        current_streak := 1, max_streak := 1, last_activity_date := today }
    else
      { user_id := uid, attempted := 1, correct := 0, score := -1,
        current_streak := 0, max_streak := 0, last_activity_date := today }
  | some s =>
    if is_correct then
      { user_id := s.user_id, attempted := s.attempted + 1,
        correct := s.correct + 1, score := s.score + 4,
        current_streak := s.current_streak + 1,
        max_streak :=
          if s.current_streak + 1 > s.max_streak then s.current_streak + 1
          else s.max_streak,
        last_activity_date := today }
    else
      { user_id := s.user_id, attempted := s.attempted + 1,
        correct := s.correct, score := s.score - 1,
        current_streak := 0, max_streak := s.max_streak,
        last_activity_date := today }

/-- One `update_user_stats` call as a transition on the user's
(optional) `stats` row; the pair carries `(is_correct, today)`. -/
def record_step (uid : Int) (st : Option StatsRow) (c : Bool × String) :
    Option StatsRow :=
  some (update_user_stats_global uid st c.1 c.2)

/-- A finite sequence of `update_user_stats` calls for one user,
starting from no `stats` row. -/
def run_answers (uid : Int) (calls : List (Bool × String)) : Option StatsRow :=
  calls.foldl (record_step uid) none

/-- Row of the `users` table (database.py lines 73-74). -/
structure UserRow where
  user_id : Int
  username : Option String
  first_name : Option String
  joined_at : Option String
deriving Repr, DecidableEq

/-- The `users` upsert inside `database.update_user_stats` (lines
146-152): `ON CONFLICT(user_id) DO UPDATE SET
username = COALESCE(excluded.username, username),
first_name = COALESCE(excluded.first_name, first_name)`. -/
def update_user_stats_users (uid : Int) (username first_name : Option String)
    (row : Option UserRow) : UserRow :=
  match row with
  | none => { user_id := uid, username := username,
              first_name := first_name, joined_at := none }
  | some u => { user_id := u.user_id, username := username.or u.username,
                first_name := first_name.or u.first_name,
                joined_at := u.joined_at }

/-- The `users` upsert inside `main.handle_poll_answer` (lines 172-178):
`ON CONFLICT(user_id) DO UPDATE SET username = excluded.username,
first_name = excluded.first_name` — unconditional overwrite. -/
def handle_poll_answer_users (uid : Int) (username first_name : Option String)
    (row : Option UserRow) : UserRow :=
  match row with
  | none => { user_id := uid, username := username,
              first_name := first_name, joined_at := none }
  | some u => { user_id := u.user_id, username := username,
                first_name := first_name, joined_at := u.joined_at }

/-- Row of the `group_stats` table (database.py lines 112-115). -/
structure GroupStatsRow where
  chat_id : Int
  user_id : Int
  score : Int
  attempted : Int
  correct : Int
deriving Repr, DecidableEq

/-- The `group_stats` upsert of `database.update_user_stats`
(lines 190-198). -/
def update_user_stats_group (uid cid : Int) (row : Option GroupStatsRow)
    (is_correct : Bool) : GroupStatsRow :=
  let score_change : Int := if is_correct then 4 else -1
  let correct_inc : Int := if is_correct then 1 else 0
  match row with
  | none => { chat_id := cid, user_id := uid, score := score_change,
              attempted := 1, correct := correct_inc }
  | some g => { chat_id := g.chat_id, user_id := g.user_id,
                score := g.score + score_change,
                attempted := g.attempted + 1,
                correct := g.correct + correct_inc }

/-- Row of the `daily_stats` table (database.py lines 104-109). -/
structure DailyStatsRow where
  user_id : Int
  day : String
  attempted : Int
  correct : Int
deriving Repr, DecidableEq

/-- The `daily_stats` upsert of `database.update_user_stats`
(lines 180-187). -/
def update_user_stats_daily (uid : Int) (day : String)
    (row : Option DailyStatsRow) (is_correct : Bool) : DailyStatsRow :=
  let correct_inc : Int := if is_correct then 1 else 0
  match row with
  | none => { user_id := uid, day := day, attempted := 1,
              correct := correct_inc }
  | some r => { user_id := r.user_id, day := r.day,
                attempted := r.attempted + 1,
                correct := r.correct + correct_inc }

/-- Score law of a `stats` row: `score = 4*correct - (attempted - correct)`. -/
def scoreLaw (s : StatsRow) : Prop :=
  s.score = 4 * s.correct - (s.attempted - s.correct)

/-- Streak well-formedness of a `stats` row. -/
def streakInv (s : StatsRow) : Prop :=
  0 ≤ s.current_streak ∧ s.current_streak ≤ s.max_streak

/-- Max-streak of an optional `stats` row (absent row counts as 0). -/
def msOf : Option StatsRow → Int
  | none => 0
  | some s => s.max_streak

/-- Row of the `questions` table (database.py lines 65-68). -/
structure Question where
  id : Int
  question : String
  a : String
  b : String
  c : String
  d : String
  correct : String
  explanation : String
deriving Repr, DecidableEq

/-- The `SELECT * FROM questions ORDER BY RANDOM() LIMIT 1` of
`main.send_random_quiz` (line 123): some question of the store, or
none when the store is empty.  The random choice is modelled by the
index parameter `r`. -/
def draw_random (store : List Question) (r : Nat) : Option Question :=
  if h : store = [] then none
  else some (store.get ⟨r % store.length, Nat.mod_lt r (List.length_pos.mpr h)⟩)

/-- The successful path of `main.send_random_quiz` (lines 121-156):
fetch one random question; if found, the poll is sent and the question
is deleted by id (`DELETE FROM questions WHERE id = ?`, line 156).
Returns the drawn question (if any) and the resulting store. -/
def send_random_quiz_draw (store : List Question) (r : Nat) :
    Option Question × List Question :=
  match draw_random store r with
  | none => (none, store)
  | some q => (some q, store.filter (fun x => x.id != q.id))

/-- A sequence of successful `send_random_quiz` draws, one per random
index in `rs`; returns the served questions in order and the final
store. -/
def draw_seq (store : List Question) : List Nat → List Question × List Question
  | [] => ([], store)
  | r :: rs =>
    match send_random_quiz_draw store r with
    | (none, s1) => ([], s1)
    | (some q, s1) =>
      let p := draw_seq s1 rs
      (q :: p.1, p.2)

/-- Python's `str.upper()` as used on answer keys: uppercase each
character (ASCII case mapping; answer keys are ASCII). -/
def pyUpper (s : String) : String := String.mk (s.data.map Char.toUpper)

/-- The answer-key map of `main.send_random_quiz` (line 135) and
`main.auto_quiz_job` (line 649):
`correct_map = \x7b'1': 0, '2': 1, '3': 2, '4': 3, 'A': 0, 'B': 1,
'C': 2, 'D': 3\x7d`. -/
def correct_map : List (String × Nat) :=
  [("1", 0), ("2", 1), ("3", 2), ("4", 3), ("A", 0), ("B", 1), ("C", 2), ("D", 3)]

/-- Answer-key normalization: `correct_map.get(str(x).upper())` as an
optional lookup (main.py line 136 applies a default of 0 on top of
this lookup; the lookup itself is the normalization map). -/
def normalize_answer (s : String) : Option Nat :=
  correct_map.lookup (pyUpper s)

/-- The `addquestion` import validation (main.py line 451):
`correct in ['1', '2', '3', '4', 'A', 'B', 'C', 'D']` after upper-casing. -/
def addquestion_valid (s : String) : Bool :=
  ["1", "2", "3", "4", "A", "B", "C", "D"].contains (pyUpper s)

/-- The `LEFT JOIN users u ON ... user_id = u.user_id` row lookup. -/
def lookupUser (users : List UserRow) (uid : Int) : Option UserRow :=
  users.find? (fun u => u.user_id == uid)

/-- The `CASE WHEN u.username IS NOT NULL AND u.username != '' THEN
'@' || u.username ELSE NULL END` arm of the leaderboard name SQL
(database.py lines 203-208). -/
def username_case (username : Option String) : Option String :=
  match username with
  | some un => if un = "" then none else some ("@" ++ un)
  | none => none

/-- The full `COALESCE(CASE ... END, u.first_name,
'Participant ' || user_id)` display-name expression. -/
def display_name_sql (username first_name : Option String) (uid : Int) :
    String :=
  ((username_case username).or first_name).getD ("Participant " ++ toString uid)

/-- Display name of a leaderboard row for a stats row with key `uid`,
with LEFT-JOIN semantics (missing `users` row gives NULL columns). -/
def rowName (users : List UserRow) (uid : Int) : String :=
  display_name_sql ((lookupUser users uid).bind UserRow.username)
    ((lookupUser users uid).bind UserRow.first_name) uid

/-- A row returned by `get_leaderboard_data`
(display_name, attempted, correct, score). -/
structure LBRow where
  display_name : String
  attempted : Int
  correct : Int
  score : Int
deriving Repr, DecidableEq

/-- Insertion step of a sort by `key` descending, modelling
`ORDER BY score DESC` (tie order unspecified in SQL; here
insertion order). -/
def insertDesc {α : Type} (key : α → Int) (x : α) : List α → List α
  | [] => [x]
  | y :: ys => if key y ≤ key x then x :: y :: ys else y :: insertDesc key x ys

/-- Sort by `key` descending (`ORDER BY score DESC`). -/
def sortDesc {α : Type} (key : α → Int) : List α → List α
  | [] => []
  | x :: xs => insertDesc key x (sortDesc key xs)

/-- The leaderboard query `database.get_leaderboard_data`
(lines 201-215): group scope filters `group_stats` by chat, global
scope reads `stats`; both order by score descending, resolve the
display name per row, and truncate to `limit`. -/
def get_leaderboard_data (stats : List StatsRow)
    (gstats : List GroupStatsRow) (users : List UserRow)
    (chat_id : Option Int) (limit : Nat) : List LBRow :=
  match chat_id with
  | some cid =>
    ((sortDesc GroupStatsRow.score
        (gstats.filter (fun g => g.chat_id == cid))).map
      (fun g => { display_name := rowName users g.user_id,
                  attempted := g.attempted, correct := g.correct,
                  score := g.score })).take limit
  | none =>
    ((sortDesc StatsRow.score stats).map
      (fun s => { display_name := rowName users s.user_id,
                  attempted := s.attempted, correct := s.correct,
                  score := s.score })).take limit

/-- The global-rank query of `main.mystats` (line 264):
`SELECT COUNT(*) + 1 FROM stats WHERE score > ?`. -/
def get_rank_global (stats : List StatsRow) (score : Int) : Nat :=
  (stats.filter (fun r => decide (score < r.score))).length + 1

/-- The group-rank query of `main.mystats` (lines 269-270):
`SELECT COUNT(*) + 1 FROM group_stats WHERE chat_id = ? AND
score > ?`. -/
def get_rank_group (gstats : List GroupStatsRow) (cid score : Int) : Nat :=
  (gstats.filter (fun g => g.chat_id == cid && decide (score < g.score))).length + 1

/-- The group-rank computation of `main.mystats` (lines 259-271): the
user's row `s` is fetched from the GLOBAL `stats` table, and the
group-rank query is parameterized with `s['score']` — the global
score. Returns none when the user has no `stats` row (rank "N/A"). -/
def mystats_group_rank (stats : List StatsRow) (gstats : List GroupStatsRow)
    (uid cid : Int) : Option Nat :=
  match stats.find? (fun s => s.user_id == uid) with
  | none => none
  | some s => some (get_rank_group gstats cid s.score)

/-- Sample global stats row: user 1, score 5. -/
def sampleS1 : StatsRow :=
  { user_id := 1, attempted := 2, correct := 2, score := 5,
    current_streak := 2, max_streak := 2, last_activity_date := "x" }

/-- Sample global stats row: user 1, score -1. -/
def sampleS2 : StatsRow :=
  { user_id := 1, attempted := 1, correct := 0, score := -1,
    current_streak := 0, max_streak := 0, last_activity_date := "x" }

/-- Sample global stats row: user 2, score 4. -/
def sampleS3 : StatsRow :=
  { user_id := 2, attempted := 1, correct := 1, score := 4,
    current_streak := 1, max_streak := 1, last_activity_date := "x" }

/-- Sample global stats row: user 7, score 4. -/
def sampleS7 : StatsRow :=
  { user_id := 7, attempted := 1, correct := 1, score := 4,
    current_streak := 1, max_streak := 1, last_activity_date := "x" }

/-- Sample group stats rows in chat -1: user 8 with score 3 and user 7
with score 0. -/
def sampleG : List GroupStatsRow :=
  [{ chat_id := -1, user_id := 8, score := 3, attempted := 1, correct := 1 },
   { chat_id := -1, user_id := 7, score := 0, attempted := 1, correct := 0 }]

lemma scoreLaw_step (uid : Int) (st : Option StatsRow) (b : Bool) (d : String)
    (h : ∀ s, st = some s → scoreLaw s) :
    scoreLaw (update_user_stats_global uid st b d) := by
  cases st with
  | none => cases b <;> simp [update_user_stats_global, scoreLaw]
  | some s =>
    have hs := h s rfl
    unfold scoreLaw at hs ⊢
    cases b <;> simp [update_user_stats_global] <;> omega

lemma scoreLaw_fold (uid : Int) (calls : List (Bool × String)) :
    ∀ st : Option StatsRow, (∀ s, st = some s → scoreLaw s) →
      ∀ s, calls.foldl (record_step uid) st = some s → scoreLaw s := by
  induction calls with
  | nil =>
    intro st h s hs
    simp only [List.foldl_nil] at hs
    exact h s hs
  | cons c cs ih =>
    intro st h s hs
    simp only [List.foldl_cons] at hs
    refine ih (record_step uid st c) ?_ s hs
    intro s' hs'
    have : s' = update_user_stats_global uid st c.1 c.2 := by
      simpa [record_step] using hs'.symm
    rw [this]
    exact scoreLaw_step uid st c.1 c.2 h

lemma streakInv_step (uid : Int) (st : Option StatsRow) (b : Bool) (d : String)
    (h : ∀ s, st = some s → streakInv s) :
    streakInv (update_user_stats_global uid st b d) := by
  cases st with
  | none =>
    cases b <;> simp [update_user_stats_global, streakInv]
  | some s =>
    have hs := h s rfl
    unfold streakInv at hs ⊢
    cases b <;> simp only [update_user_stats_global, Bool.false_eq_true,
      if_false, if_true]
    · omega
    · constructor
      · omega
      · split <;> omega

lemma streakInv_fold (uid : Int) (calls : List (Bool × String)) :
    ∀ st : Option StatsRow, (∀ s, st = some s → streakInv s) →
      ∀ s, calls.foldl (record_step uid) st = some s → streakInv s := by
  induction calls with
  | nil =>
    intro st h s hs
    simp only [List.foldl_nil] at hs
    exact h s hs
  | cons c cs ih =>
    intro st h s hs
    simp only [List.foldl_cons] at hs
    refine ih (record_step uid st c) ?_ s hs
    intro s' hs'
    have : s' = update_user_stats_global uid st c.1 c.2 := by
      simpa [record_step] using hs'.symm
    rw [this]
    exact streakInv_step uid st c.1 c.2 h

lemma msOf_step (uid : Int) (st : Option StatsRow) (c : Bool × String) :
    msOf st ≤ msOf (record_step uid st c) := by
  rcases c with ⟨b, d⟩
  cases st with
  | none => cases b <;> simp [record_step, update_user_stats_global, msOf]
  | some s =>
    cases b with
    | false => simp [record_step, update_user_stats_global, msOf]
    | true =>
      show s.max_streak ≤ msOf (some (update_user_stats_global uid (some s) true d))
      simp only [update_user_stats_global, if_true, msOf]
      split <;> omega

lemma msOf_fold (uid : Int) (calls : List (Bool × String)) :
    ∀ st : Option StatsRow, msOf st ≤ msOf (calls.foldl (record_step uid) st) := by
  induction calls with
  | nil => intro st; simp
  | cons c cs ih =>
    intro st
    simp only [List.foldl_cons]
    exact le_trans (msOf_step uid st c) (ih (record_step uid st c))

lemma draw_random_mem {store : List Question} {r : Nat} {q : Question}
    (h : draw_random store r = some q) : q ∈ store := by
  unfold draw_random at h
  split at h
  · cases h
  · exact (Option.some.inj h) ▸ List.get_mem _ _ _

lemma send_draw_some {store : List Question} {r : Nat} {q : Question}
    {s1 : List Question}
    (h : send_random_quiz_draw store r = (some q, s1)) :
    q ∈ store ∧ s1 = store.filter (fun x => x.id != q.id) := by
  unfold send_random_quiz_draw at h
  cases hd : draw_random store r with
  | none => rw [hd] at h; cases h
  | some q0 =>
    rw [hd] at h
    obtain ⟨h1, h2⟩ := Prod.mk.injEq .. ▸ h
    obtain rfl := Option.some.inj h1
    exact ⟨draw_random_mem hd, h2.symm⟩

lemma send_draw_none {store : List Question} {r : Nat} {s1 : List Question}
    (h : send_random_quiz_draw store r = (none, s1)) :
    store = [] ∧ s1 = store := by
  unfold send_random_quiz_draw at h
  cases hd : draw_random store r with
  | none =>
    rw [hd] at h
    obtain ⟨_, h2⟩ := Prod.mk.injEq .. ▸ h
    refine ⟨?_, h2.symm⟩
    unfold draw_random at hd
    split at hd
    · assumption
    · cases hd
  | some q0 => rw [hd] at h; cases h

lemma filter_length_of_nodup {store : List Question} {q : Question}
    (hnd : (store.map Question.id).Nodup) (hq : q ∈ store) :
    (store.filter (fun x => x.id != q.id)).length = store.length - 1 := by
  induction store with
  | nil => cases hq
  | cons x xs ih =>
    simp only [List.map_cons, List.nodup_cons] at hnd
    obtain ⟨hx, hxs⟩ := hnd
    by_cases hid : x.id = q.id
    · have hxsq : ∀ y ∈ xs, ¬ (y.id = q.id) := by
        intro y hy hyq
        exact hx (hid ▸ hyq ▸ List.mem_map_of_mem Question.id hy)
      have : xs.filter (fun y => y.id != q.id) = xs := by
        apply List.filter_eq_self.mpr
        intro y hy
        simpa using hxsq y hy
      simp [List.filter_cons, hid, this]
    · have hqxs : q ∈ xs := by
        rcases List.mem_cons.mp hq with h | h
        · exact absurd (congrArg Question.id h.symm) hid
        · exact h
      have hlen := ih hxs hqxs
      have hpos : 0 < xs.length := List.length_pos.mpr (List.ne_nil_of_mem hqxs)
      have hcond : (x.id != q.id) = true := by simpa using hid
      simp only [List.filter_cons, hcond, if_true, List.length_cons]
      omega

lemma filter_sub_nodup {store : List Question} {q : Question}
    (hnd : (store.map Question.id).Nodup) :
    ((store.filter (fun x => x.id != q.id)).map Question.id).Nodup :=
  List.Nodup.sublist (List.Sublist.map Question.id (List.filter_sublist _)) hnd

lemma mem_filter_ne {store : List Question} {q y : Question}
    (hy : y ∈ store.filter (fun x => x.id != q.id)) : y.id ≠ q.id := by
  have := (List.mem_filter.mp hy).2
  simpa using this

/-- Bundle of invariants of a draw sequence, proved by induction on the
random-index list. -/
lemma draw_seq_spec (rs : List Nat) :
    ∀ store : List Question, (store.map Question.id).Nodup →
      (∀ q, q ∈ (draw_seq store rs).1 → q ∈ store) ∧
      ((draw_seq store rs).1.map Question.id).Nodup ∧
      (∀ q, q ∈ (draw_seq store rs).1 →
        ∀ x, x ∈ (draw_seq store rs).2 → x.id ≠ q.id) ∧
      ((draw_seq store rs).2.map Question.id).Nodup ∧
      (∀ x, x ∈ (draw_seq store rs).2 → x ∈ store) ∧
      (rs.length ≤ store.length →
        (draw_seq store rs).1.length = rs.length ∧
        (draw_seq store rs).2.length = store.length - rs.length) := by
  induction rs with
  | nil =>
    intro store hnd
    refine ⟨?_, ?_, ?_, ?_, ?_, ?_⟩ <;> simp [draw_seq, hnd]
  | cons r rs ih =>
    intro store hnd
    cases hs : send_random_quiz_draw store r with
    | mk oq s1 =>
      cases oq with
      | none =>
        obtain ⟨hemp, rfl⟩ := send_draw_none hs
        subst hemp
        refine ⟨?_, ?_, ?_, ?_, ?_, ?_⟩ <;> simp [draw_seq, hs]
      | some q =>
        obtain ⟨hqmem, rfl⟩ := send_draw_some hs
        have hnd1 : ((store.filter (fun x => x.id != q.id)).map
            Question.id).Nodup := filter_sub_nodup hnd
        obtain ⟨ih1, ih2, ih3, ih4, ih5, ih6⟩ :=
          ih (store.filter (fun x => x.id != q.id)) hnd1
        have hunf : draw_seq store (r :: rs) =
            (q :: (draw_seq (store.filter (fun x => x.id != q.id)) rs).1,
             (draw_seq (store.filter (fun x => x.id != q.id)) rs).2) := by
          simp [draw_seq, hs]
        rw [hunf]
        refine ⟨?_, ?_, ?_, ih4, ?_, ?_⟩
        · intro p hp
          rcases List.mem_cons.mp hp with rfl | hp
          · exact hqmem
          · exact List.mem_of_mem_filter (ih1 p hp)
        · simp only [List.map_cons, List.nodup_cons]
          refine ⟨?_, ih2⟩
          intro hmem
          obtain ⟨p, hp, hpid⟩ := List.mem_map.mp hmem
          have hpstore := ih1 p hp
          exact mem_filter_ne hpstore hpid
        · intro p hp x hx
          rcases List.mem_cons.mp hp with rfl | hp
          · exact mem_filter_ne (ih5 x hx)
          · exact ih3 p hp x hx
        · intro x hx
          exact List.mem_of_mem_filter (ih5 x hx)
        · intro hlen
          simp only [List.length_cons] at hlen
          have hstore_pos : 0 < store.length := by omega
          have hflen : (store.filter (fun x => x.id != q.id)).length =
              store.length - 1 := filter_length_of_nodup hnd hqmem
          have hle : rs.length ≤
              (store.filter (fun x => x.id != q.id)).length := by omega
          obtain ⟨hl1, hl2⟩ := ih6 hle
          constructor
          · simp [hl1]
          · rw [hl2, hflen]
            simp only [List.length_cons]
            omega

lemma uint32_eq_of_toNat_eq (x y : UInt32) (h : x.toNat = y.toNat) : x = y := by
  cases x; cases y
  simp only [UInt32.toNat] at h
  congr 1
  exact BitVec.eq_of_toNat_eq h

lemma char_eq_of_toNat_eq (c0 d0 : Char) (h : c0.toNat = d0.toNat) : c0 = d0 :=
  Char.eq_of_val_eq (uint32_eq_of_toNat_eq _ _ h)

lemma char_toNat_ofNat (m : Nat) (h1 : 65 ≤ m) (h2 : m ≤ 90) :
    (Char.ofNat m).toNat = m := by
  have hv : m.isValidChar := Or.inl (by omega)
  simp [Char.ofNat, hv, Char.ofNatAux, Char.toNat, UInt32.toNat]

lemma toUpper_cases (c0 d0 : Char) (h : c0.toUpper = d0) :
    c0 = d0 ∨ (65 ≤ d0.toNat ∧ d0.toNat ≤ 90 ∧ c0.toNat = d0.toNat + 32) := by
  unfold Char.toUpper at h
  dsimp only at h
  split at h
  case isTrue hc =>
    right
    have ht : (Char.ofNat (c0.toNat - 32)).toNat = c0.toNat - 32 := by
      apply char_toNat_ofNat <;> omega
    have hd : d0.toNat = c0.toNat - 32 := by rw [← h]; exact ht
    omega
  case isFalse hc => left; exact h

lemma toUpper_digit {c0 d0 : Char} (h : c0.toUpper = d0) (hd : d0.toNat < 65) :
    c0 = d0 := by
  rcases toUpper_cases c0 d0 h with h1 | ⟨h1, _, _⟩
  · exact h1
  · omega

lemma toUpper_letter {c0 d0 : Char} (h : c0.toUpper = d0)
    (_h1 : 65 ≤ d0.toNat) (_h2 : d0.toNat ≤ 90) :
    c0 = d0 ∨ c0.toNat = d0.toNat + 32 := by
  rcases toUpper_cases c0 d0 h with hh | ⟨_, _, hh⟩
  · exact Or.inl hh
  · exact Or.inr hh

lemma pyUpper_singleton {s : String} {c : Char}
    (h : pyUpper s = String.mk [c]) :
    ∃ c0, s = String.mk [c0] ∧ c0.toUpper = c := by
  cases s with
  | mk data =>
    cases data with
    | nil =>
      have hd := congrArg String.data h
      simp [pyUpper] at hd
    | cons c0 t =>
      cases t with
      | nil =>
        refine ⟨c0, rfl, ?_⟩
        have hd := congrArg String.data h
        simpa [pyUpper] using hd
      | cons c1 t1 =>
        have hd := congrArg String.data h
        simp [pyUpper] at hd

lemma pyUpper_eq_digit {s : String} {dg : Char} (hd : dg.toNat < 65)
    (h : pyUpper s = String.mk [dg]) : s = String.mk [dg] := by
  obtain ⟨c0, rfl, hup⟩ := pyUpper_singleton h
  rw [toUpper_digit hup hd]

lemma pyUpper_eq_letter {s : String} {up low : Char}
    (hlow : low.toNat = up.toNat + 32) (h65 : 65 ≤ up.toNat)
    (h90 : up.toNat ≤ 90) (h : pyUpper s = String.mk [up]) :
    s = String.mk [up] ∨ s = String.mk [low] := by
  obtain ⟨c0, rfl, hup⟩ := pyUpper_singleton h
  rcases toUpper_letter hup h65 h90 with h3 | h3
  · left; rw [h3]
  · right
    have hc : c0 = low := char_eq_of_toNat_eq _ _ (by omega)
    rw [hc]

lemma lookup_correct_map {k : String} {i : Nat}
    (h : correct_map.lookup k = some i) :
    k = "1" ∨ k = "2" ∨ k = "3" ∨ k = "4" ∨
    k = "A" ∨ k = "B" ∨ k = "C" ∨ k = "D" := by
  simp only [correct_map, List.lookup] at h
  repeat' split at h
  all_goals simp_all [beq_iff_eq]

lemma mem_insertDesc {α : Type} (key : α → Int) (x z : α) (l : List α) :
    z ∈ insertDesc key x l ↔ z = x ∨ z ∈ l := by
  induction l with
  | nil => simp [insertDesc]
  | cons y ys ih =>
    simp only [insertDesc]
    split
    · simp [List.mem_cons]
    · simp only [List.mem_cons, ih]
      tauto

lemma pairwise_insertDesc {α : Type} (key : α → Int) (x : α) (l : List α)
    (h : l.Pairwise (fun p1 p2 => key p2 ≤ key p1)) :
    (insertDesc key x l).Pairwise (fun p1 p2 => key p2 ≤ key p1) := by
  induction l with
  | nil => simp [insertDesc]
  | cons y ys ih =>
    simp only [insertDesc]
    rcases List.pairwise_cons.mp h with ⟨hy, hys⟩
    split
    case isTrue hle =>
      refine List.pairwise_cons.mpr ⟨?_, h⟩
      intro z hz
      rcases List.mem_cons.mp hz with rfl | hz
      · exact hle
      · exact le_trans (hy z hz) hle
    case isFalse hlt =>
      refine List.pairwise_cons.mpr ⟨?_, ih hys⟩
      intro z hz
      rcases (mem_insertDesc key x z ys).mp hz with rfl | hz
      · omega
      · exact hy z hz

lemma pairwise_sortDesc {α : Type} (key : α → Int) (l : List α) :
    (sortDesc key l).Pairwise (fun p1 p2 => key p2 ≤ key p1) := by
  induction l with
  | nil => simp [sortDesc]
  | cons x xs ih => exact pairwise_insertDesc key x (sortDesc key xs) ih

lemma pairwise_sorted_map_take {α : Type} (key : α → Int) (l : List α)
    (f : α → LBRow) (hf : ∀ p, (f p).score = key p) (n : Nat) :
    (((sortDesc key l).map f).take n).Pairwise
      (fun p1 p2 => p2.score ≤ p1.score) := by
  have hp := pairwise_sortDesc key l
  have hm : ((sortDesc key l).map f).Pairwise
      (fun p1 p2 => p2.score ≤ p1.score) := by
    refine List.Pairwise.map f ?_ hp
    intro p1 p2 hle
    rw [hf p1, hf p2]
    exact hle
  exact List.Pairwise.sublist (List.take_sublist n _) hm

/-- Claim C1: on an existing `stats` row, a correct answer increments
`attempted`, `correct` (+1 each), adds 4 to `score`, increments
`current_streak`, and sets `max_streak` to the maximum of the old
`max_streak` and the new post-increment `current_streak`; a wrong
answer increments `attempted`, subtracts 1 from `score`, resets
`current_streak` to 0, and leaves `correct` and `max_streak` unchanged.
On an absent row, the row is created with `attempted = 1` and, when
correct, `correct = 1, score = 4, current_streak = 1, max_streak = 1`;
when incorrect, `correct = 0, score = -1, current_streak = 0,
max_streak = 0`. -/
theorem claim_C1 (s : StatsRow) (uid : Int) (d : String) :
    update_user_stats_global uid (some s) true d =
      { user_id := s.user_id, attempted := s.attempted + 1,
        correct := s.correct + 1, score := s.score + 4,
        current_streak := s.current_streak + 1,
        max_streak := max s.max_streak (s.current_streak + 1),
        last_activity_date := d } ∧
    update_user_stats_global uid (some s) false d =
      { user_id := s.user_id, attempted := s.attempted + 1,
        correct := s.correct, score := s.score - 1,
        current_streak := 0, max_streak := s.max_streak,
        last_activity_date := d } ∧
    update_user_stats_global uid none true d =
      { user_id := uid, attempted := 1, correct := 1, score := 4,
        current_streak := 1, max_streak := 1, last_activity_date := d } ∧
    update_user_stats_global uid none false d =
      { user_id := uid, attempted := 1, correct := 0, score := -1,
        current_streak := 0, max_streak := 0, last_activity_date := d } := by
  refine ⟨?_, rfl, rfl, rfl⟩
  have hmax : (if s.current_streak + 1 > s.max_streak then s.current_streak + 1
      else s.max_streak) = max s.max_streak (s.current_streak + 1) := by
    split <;> omega
  simp [update_user_stats_global, hmax]

/-- Claim C2: starting from no `stats` row, after every finite sequence
of `update_user_stats` calls the resulting row satisfies
`score = 4*correct - (attempted - correct)`. -/
theorem claim_C2 (uid : Int) (calls : List (Bool × String)) (s : StatsRow)
    (h : run_answers uid calls = some s) :
    s.score = 4 * s.correct - (s.attempted - s.correct) :=
  scoreLaw_fold uid calls none (by intro s' hs'; cases hs') s h

/-- Witness for C2 at the concrete call sequence
[correct, correct, wrong]. -/
theorem claim_C2_witness :
    ({ user_id := 7, attempted := 3, correct := 2, score := 7,
       current_streak := 0, max_streak := 2,
       last_activity_date := "2025-01-01" } : StatsRow).score =
      4 * ({ user_id := 7, attempted := 3, correct := 2, score := 7,
             current_streak := 0, max_streak := 2,
             last_activity_date := "2025-01-01" } : StatsRow).correct -
        (({ user_id := 7, attempted := 3, correct := 2, score := 7,
            current_streak := 0, max_streak := 2,
            last_activity_date := "2025-01-01" } : StatsRow).attempted -
          ({ user_id := 7, attempted := 3, correct := 2, score := 7,
             current_streak := 0, max_streak := 2,
             last_activity_date := "2025-01-01" } : StatsRow).correct) :=
  claim_C2 7
    [(true, "2025-01-01"), (true, "2025-01-01"), (false, "2025-01-01")]
    { user_id := 7, attempted := 3, correct := 2, score := 7,
      current_streak := 0, max_streak := 2,
      last_activity_date := "2025-01-01" }
    (by decide)

/-- Claim C3: across any sequence of `update_user_stats` calls for one
user, `max_streak` is non-decreasing; `current_streak ≤ max_streak`
holds after every call; and immediately after a call with
`is_correct = false`, `current_streak = 0`. -/
theorem claim_C3 (uid : Int) (xs ys : List (Bool × String)) (d : String)
    (s1 s2 s3 : StatsRow) :
    (run_answers uid xs = some s1 → run_answers uid (xs ++ ys) = some s2 →
      s1.max_streak ≤ s2.max_streak) ∧
    (run_answers uid xs = some s1 → s1.current_streak ≤ s1.max_streak) ∧
    (run_answers uid (xs ++ [(false, d)]) = some s3 →
      s3.current_streak = 0) := by
  refine ⟨?_, ?_, ?_⟩
  · intro h1 h2
    have hsplit : run_answers uid (xs ++ ys) =
        ys.foldl (record_step uid) (run_answers uid xs) := by
      unfold run_answers
      exact List.foldl_append _ _ _ _
    have hmono := msOf_fold uid ys (run_answers uid xs)
    rw [h1] at hmono
    rw [hsplit, h1] at h2
    rw [h1] at hsplit
    calc s1.max_streak = msOf (some s1) := rfl
      _ ≤ msOf (ys.foldl (record_step uid) (some s1)) := hmono
      _ = msOf (some s2) := by rw [h2]
      _ = s2.max_streak := rfl
  · intro h1
    exact (streakInv_fold uid xs none (by intro s' hs'; cases hs') s1 h1).2
  · intro h3
    have hsplit : run_answers uid (xs ++ [(false, d)]) =
        [((false : Bool), d)].foldl (record_step uid) (run_answers uid xs) := by
      unfold run_answers
      exact List.foldl_append _ _ _ _
    rw [hsplit] at h3
    simp only [List.foldl_cons, List.foldl_nil, record_step] at h3
    have h4 := Option.some.inj h3
    rw [← h4]
    cases run_answers uid xs with
    | none => simp [update_user_stats_global]
    | some s => simp [update_user_stats_global]

/-- Witness for C3 at xs = [correct], ys = [wrong], showing 1 ≤ 1 for
max-streak monotonicity, streak bound 1 ≤ 1, and the reset to 0. -/
theorem claim_C3_witness :
    (({ user_id := 7, attempted := 1, correct := 1, score := 4,
        current_streak := 1, max_streak := 1,
        last_activity_date := "x" } : StatsRow).max_streak ≤
      ({ user_id := 7, attempted := 2, correct := 1, score := 3,
         current_streak := 0, max_streak := 1,
         last_activity_date := "x" } : StatsRow).max_streak) ∧
    (({ user_id := 7, attempted := 1, correct := 1, score := 4,
        current_streak := 1, max_streak := 1,
        last_activity_date := "x" } : StatsRow).current_streak ≤
      ({ user_id := 7, attempted := 1, correct := 1, score := 4,
         current_streak := 1, max_streak := 1,
         last_activity_date := "x" } : StatsRow).max_streak) ∧
    (({ user_id := 7, attempted := 2, correct := 1, score := 3,
        current_streak := 0, max_streak := 1,
        last_activity_date := "x" } : StatsRow).current_streak = 0) :=
  ⟨(claim_C3 7 [(true, "x")] [(false, "x")] "x"
      { user_id := 7, attempted := 1, correct := 1, score := 4,
        current_streak := 1, max_streak := 1, last_activity_date := "x" }
      { user_id := 7, attempted := 2, correct := 1, score := 3,
        current_streak := 0, max_streak := 1, last_activity_date := "x" }
      { user_id := 7, attempted := 2, correct := 1, score := 3,
        current_streak := 0, max_streak := 1,
        last_activity_date := "x" }).1 (by decide) (by decide),
   (claim_C3 7 [(true, "x")] [(false, "x")] "x"
      { user_id := 7, attempted := 1, correct := 1, score := 4,
        current_streak := 1, max_streak := 1, last_activity_date := "x" }
      { user_id := 7, attempted := 2, correct := 1, score := 3,
        current_streak := 0, max_streak := 1, last_activity_date := "x" }
      { user_id := 7, attempted := 2, correct := 1, score := 3,
        current_streak := 0, max_streak := 1,
        last_activity_date := "x" }).2.1 (by decide),
   (claim_C3 7 [(true, "x")] [(false, "x")] "x"
      { user_id := 7, attempted := 1, correct := 1, score := 4,
        current_streak := 1, max_streak := 1, last_activity_date := "x" }
      { user_id := 7, attempted := 2, correct := 1, score := 3,
        current_streak := 0, max_streak := 1, last_activity_date := "x" }
      { user_id := 7, attempted := 2, correct := 1, score := 3,
        current_streak := 0, max_streak := 1,
        last_activity_date := "x" }).2.2 (by decide)⟩

/-- Claim C4: with K distinct questions in the store, every successful
draw retires the drawn question; over any sequence of draws no question
is served twice; and after K successful draws the next draw hits the
empty-store branch and returns no question. -/
theorem claim_C4 (store : List Question) (rs : List Nat) (r r2 : Nat)
    (hnd : (store.map Question.id).Nodup) :
    (∀ q s1, send_random_quiz_draw store r = (some q, s1) →
      q ∈ store ∧ q ∉ s1) ∧
    ((draw_seq store rs).1.map Question.id).Nodup ∧
    (∀ q, q ∈ (draw_seq store rs).1 → q ∉ (draw_seq store rs).2) ∧
    (rs.length = store.length →
      (draw_seq store rs).1.length = store.length ∧
      (send_random_quiz_draw (draw_seq store rs).2 r2).1 = none) := by
  obtain ⟨h1, h2, h3, _, _, h6⟩ := draw_seq_spec rs store hnd
  refine ⟨?_, h2, ?_, ?_⟩
  · intro q s1 hdraw
    obtain ⟨hqmem, rfl⟩ := send_draw_some hdraw
    refine ⟨hqmem, ?_⟩
    intro hq
    exact mem_filter_ne hq rfl
  · intro q hq hq2
    exact h3 q hq q hq2 rfl
  · intro hlen
    obtain ⟨hl1, hl2⟩ := h6 (le_of_eq hlen)
    rw [hlen] at hl1 hl2
    have hemp : (draw_seq store rs).2 = [] := by
      have : (draw_seq store rs).2.length = 0 := by omega
      exact List.length_eq_zero.mp this
    refine ⟨hl1, ?_⟩
    rw [hemp]
    rfl

/-- Witness for C4: two distinct questions, drawn twice; a third draw
returns no question. -/
theorem claim_C4_witness :
    (({ id := 1, question := "q1", a := "a", b := "b", c := "c", d := "d",
        correct := "A", explanation := "e" } : Question) ∈
      ([{ id := 1, question := "q1", a := "a", b := "b", c := "c", d := "d",
          correct := "A", explanation := "e" },
        { id := 2, question := "q2", a := "a", b := "b", c := "c", d := "d",
          correct := "B", explanation := "e" }] : List Question) ∧
      ({ id := 1, question := "q1", a := "a", b := "b", c := "c", d := "d",
         correct := "A", explanation := "e" } : Question) ∉
        ([{ id := 2, question := "q2", a := "a", b := "b", c := "c",
            d := "d", correct := "B", explanation := "e" }] :
          List Question)) ∧
    ((draw_seq
        [{ id := 1, question := "q1", a := "a", b := "b", c := "c", d := "d",
           correct := "A", explanation := "e" },
         { id := 2, question := "q2", a := "a", b := "b", c := "c", d := "d",
           correct := "B", explanation := "e" }] [0, 0]).1.length = 2 ∧
      (send_random_quiz_draw
        (draw_seq
          [{ id := 1, question := "q1", a := "a", b := "b", c := "c",
             d := "d", correct := "A", explanation := "e" },
           { id := 2, question := "q2", a := "a", b := "b", c := "c",
             d := "d", correct := "B", explanation := "e" }] [0, 0]).2 0).1 =
        none) :=
  ⟨(claim_C4
      [{ id := 1, question := "q1", a := "a", b := "b", c := "c", d := "d",
         correct := "A", explanation := "e" },
       { id := 2, question := "q2", a := "a", b := "b", c := "c", d := "d",
         correct := "B", explanation := "e" }] [0, 0] 0 0 (by decide)).1
      { id := 1, question := "q1", a := "a", b := "b", c := "c", d := "d",
        correct := "A", explanation := "e" }
      [{ id := 2, question := "q2", a := "a", b := "b", c := "c", d := "d",
         correct := "B", explanation := "e" }] (by decide),
   (claim_C4
      [{ id := 1, question := "q1", a := "a", b := "b", c := "c", d := "d",
         correct := "A", explanation := "e" },
       { id := 2, question := "q2", a := "a", b := "b", c := "c", d := "d",
         correct := "B", explanation := "e" }] [0, 0] 0 0 (by decide)).2.2.2
      (by decide)⟩

/-- Claim C7: the answer-key normalization maps exactly the inputs
1-4 and A-D (letters case-insensitively) to option indices 0..3, and
produces no index for any other input; the `addquestion` validation
accepts exactly the inputs the normalization maps. -/
theorem claim_C7 :
    (normalize_answer "1" = some 0 ∧ normalize_answer "2" = some 1 ∧
     normalize_answer "3" = some 2 ∧ normalize_answer "4" = some 3 ∧
     normalize_answer "A" = some 0 ∧ normalize_answer "B" = some 1 ∧
     normalize_answer "C" = some 2 ∧ normalize_answer "D" = some 3 ∧
     normalize_answer "a" = some 0 ∧ normalize_answer "b" = some 1 ∧
     normalize_answer "c" = some 2 ∧ normalize_answer "d" = some 3) ∧
    (∀ s i, normalize_answer s = some i →
      s ∈ ["1", "2", "3", "4", "A", "B", "C", "D",
           "a", "b", "c", "d"]) ∧
    (∀ s, addquestion_valid s = (normalize_answer s).isSome) := by
  refine ⟨by decide, ?_, ?_⟩
  · intro s i h
    unfold normalize_answer at h
    rcases lookup_correct_map h with hk | hk | hk | hk | hk | hk | hk | hk
    · rw [pyUpper_eq_digit (by decide) hk]; simp
    · rw [pyUpper_eq_digit (by decide) hk]; simp
    · rw [pyUpper_eq_digit (by decide) hk]; simp
    · rw [pyUpper_eq_digit (by decide) hk]; simp
    · rcases @pyUpper_eq_letter s 'A' 'a' (by decide) (by decide)
        (by decide) hk with h1 | h1 <;> rw [h1] <;> simp
    · rcases @pyUpper_eq_letter s 'B' 'b' (by decide) (by decide)
        (by decide) hk with h1 | h1 <;> rw [h1] <;> simp
    · rcases @pyUpper_eq_letter s 'C' 'c' (by decide) (by decide)
        (by decide) hk with h1 | h1 <;> rw [h1] <;> simp
    · rcases @pyUpper_eq_letter s 'D' 'd' (by decide) (by decide)
        (by decide) hk with h1 | h1 <;> rw [h1] <;> simp
  · intro s
    unfold addquestion_valid normalize_answer
    rw [Bool.eq_iff_iff]
    simp only [List.contains_iff_exists_mem_beq, List.lookup_isSome_iff,
      correct_map, List.mem_cons, List.not_mem_nil, or_false, beq_iff_eq]
    constructor
    · rintro ⟨x, hx, hbeq⟩
      rcases hx with h | h | h | h | h | h | h | h <;> subst h
      · exact ⟨("1", 0), by tauto, hbeq⟩
      · exact ⟨("2", 1), by tauto, hbeq⟩
      · exact ⟨("3", 2), by tauto, hbeq⟩
      · exact ⟨("4", 3), by tauto, hbeq⟩
      · exact ⟨("A", 0), by tauto, hbeq⟩
      · exact ⟨("B", 1), by tauto, hbeq⟩
      · exact ⟨("C", 2), by tauto, hbeq⟩
      · exact ⟨("D", 3), by tauto, hbeq⟩
    · rintro ⟨p, hp, hbeq⟩
      refine ⟨p.1, ?_, hbeq⟩
      rcases hp with h | h | h | h | h | h | h | h <;> rw [h] <;> tauto

/-- Witness for C7: the input B maps to index 1, hence B is among the
accepted inputs. -/
theorem claim_C7_witness :
    ("B" : String) ∈ ["1", "2", "3", "4", "A", "B", "C", "D",
                      "a", "b", "c", "d"] :=
  claim_C7.2.1 "B" 1 (by decide)

/-- Claim C5: for every leaderboard row, the display name is
`"@" + username` when the stored username is non-null and non-empty,
otherwise the stored first name when non-null, otherwise exactly
`"Participant " + user_id`; and every row output by
`get_leaderboard_data` carries a display name of this form. -/
theorem claim_C5 (users : List UserRow) (uid : Int) (u : UserRow)
    (un fn : String) :
    (lookupUser users uid = some u → u.username = some un → un ≠ "" →
      rowName users uid = "@" ++ un) ∧
    (lookupUser users uid = some u →
      (u.username = none ∨ u.username = some "") → u.first_name = some fn →
      rowName users uid = fn) ∧
    (lookupUser users uid = some u →
      (u.username = none ∨ u.username = some "") → u.first_name = none →
      rowName users uid = "Participant " ++ toString uid) ∧
    (∀ stats gstats cid limit r,
      r ∈ get_leaderboard_data stats gstats users cid limit →
      ∃ v, r.display_name = rowName users v) := by
  refine ⟨?_, ?_, ?_, ?_⟩
  · intro hu hun hne
    simp [rowName, display_name_sql, username_case, hu, hun, hne]
  · intro hu hun hfn
    rcases hun with hun | hun <;>
      simp [rowName, display_name_sql, username_case, hu, hun, hfn]
  · intro hu hun hfn
    rcases hun with hun | hun <;>
      simp [rowName, display_name_sql, username_case, hu, hun, hfn]
  · intro stats gstats cid limit r hr
    cases cid with
    | none =>
      simp only [get_leaderboard_data] at hr
      have hr2 := List.mem_of_mem_take hr
      obtain ⟨s, _, rfl⟩ := List.mem_map.mp hr2
      exact ⟨s.user_id, rfl⟩
    | some c =>
      simp only [get_leaderboard_data] at hr
      have hr2 := List.mem_of_mem_take hr
      obtain ⟨g, _, rfl⟩ := List.mem_map.mp hr2
      exact ⟨g.user_id, rfl⟩

/-- Witness for C5: a user with null username and null first name is
shown as Participant followed by the id. -/
theorem claim_C5_witness :
    rowName [{ user_id := 9, username := none, first_name := none,
               joined_at := none }] 9 = "Participant 9" :=
  (claim_C5 [{ user_id := 9, username := none, first_name := none,
               joined_at := none }] 9
      { user_id := 9, username := none, first_name := none,
        joined_at := none } "" "").2.2.1 (by decide) (Or.inl rfl) rfl

/-- Counterexample to claim C6 as stated: the `handle_poll_answer`
upsert (main.py lines 172-178) does NOT keep the stored username when
the incoming value is null — it overwrites it with null. -/
theorem claim_C6_counterexample :
    (handle_poll_answer_users 1 none none
        (some { user_id := 1, username := some "alice",
                first_name := some "Alice", joined_at := none })).username ≠
      some "alice" := by
  decide

/-- Claim C6 (amended): the scoring-engine upsert
(`database.update_user_stats`, lines 146-152) is null-preserving:
it replaces username/first_name only when the incoming value is
non-null and keeps the stored value when the incoming value is null;
the answer-handler upsert (`main.handle_poll_answer`, lines 172-178)
instead overwrites both fields with the incoming values
unconditionally, null or not. -/
theorem claim_C6_amended (u : UserRow) (uid : Int)
    (un fn : Option String) (un2 fn2 : String) :
    ((update_user_stats_users uid none fn (some u)).username =
      u.username) ∧
    ((update_user_stats_users uid un none (some u)).first_name =
      u.first_name) ∧
    ((update_user_stats_users uid (some un2) fn (some u)).username =
      some un2) ∧
    ((update_user_stats_users uid un (some fn2) (some u)).first_name =
      some fn2) ∧
    ((handle_poll_answer_users uid un fn (some u)).username = un) ∧
    ((handle_poll_answer_users uid un fn (some u)).first_name = fn) ∧
    (update_user_stats_users uid un fn none =
      { user_id := uid, username := un, first_name := fn,
        joined_at := none }) ∧
    (handle_poll_answer_users uid un fn none =
      { user_id := uid, username := un, first_name := fn,
        joined_at := none }) := by
  refine ⟨rfl, ?_, rfl, ?_, rfl, rfl, rfl, rfl⟩
  · cases un <;> rfl
  · cases un <;> rfl

/-- Claim C8: both rank queries return one plus the number of rows of
the relevant table (restricted to the group for group scope) whose
score strictly exceeds the given score, so equal scores receive equal
ranks. -/
theorem claim_C8 (stats : List StatsRow) (gstats : List GroupStatsRow)
    (cid score : Int) :
    get_rank_global stats score =
      stats.countP (fun r => decide (score < r.score)) + 1 ∧
    get_rank_group gstats cid score =
      gstats.countP
        (fun g => g.chat_id == cid && decide (score < g.score)) + 1 ∧
    (∀ s2 : Int, score = s2 →
      get_rank_global stats score = get_rank_global stats s2 ∧
      get_rank_group gstats cid score = get_rank_group gstats cid s2) := by
  refine ⟨?_, ?_, ?_⟩
  · rw [get_rank_global, List.countP_eq_length_filter]
  · rw [get_rank_group, List.countP_eq_length_filter]
  · intro s2 h
    rw [h]
    exact ⟨rfl, rfl⟩

/-- Witness for C8 at one global row with score 5, queried score 3. -/
theorem claim_C8_witness :
    get_rank_global [sampleS1] 3 =
      [sampleS1].countP (fun r => decide ((3 : Int) < r.score)) + 1 ∧
    get_rank_global [sampleS1] 3 = get_rank_global [sampleS1] 3 :=
  ⟨(claim_C8 [sampleS1] [] 0 3).1,
   ((claim_C8 [sampleS1] [] 0 3).2.2 3 rfl).1⟩

/-- Claim C9: for every limit, `get_leaderboard_data` returns at most
`limit` rows, and adjacent rows have non-increasing scores. -/
theorem claim_C9 (stats : List StatsRow) (gstats : List GroupStatsRow)
    (users : List UserRow) (cid : Option Int) (limit : Nat) :
    (get_leaderboard_data stats gstats users cid limit).length ≤ limit ∧
    ∀ (i : Nat)
      (h : i + 1 < (get_leaderboard_data stats gstats users cid limit).length),
      ((get_leaderboard_data stats gstats users cid limit).get
          ⟨i + 1, h⟩).score ≤
        ((get_leaderboard_data stats gstats users cid limit).get
          ⟨i, Nat.lt_of_succ_lt h⟩).score := by
  have hpair : (get_leaderboard_data stats gstats users cid limit).Pairwise
      (fun p1 p2 => p2.score ≤ p1.score) := by
    cases cid with
    | none =>
      exact pairwise_sorted_map_take StatsRow.score stats _
        (fun p => rfl) limit
    | some c =>
      exact pairwise_sorted_map_take GroupStatsRow.score
        (gstats.filter (fun g => g.chat_id == c)) _ (fun p => rfl) limit
  constructor
  · cases cid with
    | none => exact List.length_take_le _ _
    | some c => exact List.length_take_le _ _
  · intro i h
    exact List.pairwise_iff_get.mp hpair
      ⟨i, Nat.lt_of_succ_lt h⟩ ⟨i + 1, h⟩ (Nat.lt_succ_self i)

/-- Witness for C9: two global rows, limit 2; row 1's score is at most
row 0's. -/
theorem claim_C9_witness :
    ((get_leaderboard_data [sampleS2, sampleS3] [] [] none 2).get
        ⟨1, by decide⟩).score ≤
      ((get_leaderboard_data [sampleS2, sampleS3] [] [] none 2).get
        ⟨0, by decide⟩).score :=
  (claim_C9 [sampleS2, sampleS3] [] [] none 2).2 0 (by decide)

/-- Claim C10: `mystats` computes the group-scope rank by counting
`group_stats` rows of the current chat whose score strictly exceeds
the score of the user's row in the GLOBAL `stats` table, not the
user's group-scope score. -/
theorem claim_C10 (stats : List StatsRow) (gstats : List GroupStatsRow)
    (uid cid : Int) (s : StatsRow)
    (h : stats.find? (fun r => r.user_id == uid) = some s) :
    mystats_group_rank stats gstats uid cid =
      some ((gstats.filter
        (fun g => g.chat_id == cid && decide (s.score < g.score))).length
          + 1) := by
  unfold mystats_group_rank
  rw [h]
  rfl

/-- Witness for C10: user 7 has global score 4 but group score 0; a
rival group row with score 3 does not outrank the global score 4, so
the reported group rank is 1 — derived from the global score (the
group score 0 would have produced rank 2). -/
theorem claim_C10_witness :
    mystats_group_rank [sampleS7] sampleG 7 (-1) =
      some ((sampleG.filter
        (fun g => g.chat_id == (-1 : Int) &&
          decide (sampleS7.score < g.score))).length + 1) :=
  claim_C10 [sampleS7] sampleG 7 (-1) sampleS7 (by decide)

end NeetQuizBot
